import Mathlib

/-!
Shallow embedding of `src/slurm_plugin/capacity_block_manager.py` from
aws-parallelcluster-node: the Capacity Block reservation manager that keeps
slurm reservations in sync with EC2 Capacity Block lifecycle states.

Python strings are modelled as `String` (code-point sequences), Python dicts
as insertion-ordered association lists with last-write-wins update, raised
exceptions as `Except Unit` errors, and the external collaborators (EC2
describe call, slurm reservation commands) as explicit inputs plus a trace of
issued calls (`ExtCall`).
-/

/-- Module constant: minutes to wait before refreshing Capacity Block info. -/
def CAPACITY_BLOCK_RESERVATION_UPDATE_PERIOD : Nat := 10

/-- Module constant: the reserved slurm reservation name marker, `"pcluster-"`. -/
def SLURM_RESERVATION_NAME_PREFIX_STR : String := "pcluster-"

/-- A scheduler-visible compute node (`slurm_plugin.slurm_resources.SlurmNode`
as used here: only `name`, `queue_name`, `compute_resource_name` are read). -/
structure SlurmNode where
  name : String
  queue_name : String
  compute_resource_name : String
deriving DecidableEq

/-- `CapacityBlock`: id, queue/compute-resource binding from fleet config, the
cached EC2 reservation info (modelled by its lifecycle-state string; `none`
mirrors the initial Python `None`), and the bound node names. -/
structure CapacityBlock where
  capacity_block_id : String
  queue_name : String
  compute_resource_name : String
  capacity_block_reservation_info : Option String
  nodenames : List String
deriving DecidableEq

/-- `CapacityBlock.slurm_reservation_name`: marker string concatenated with the id. -/
def CapacityBlock.slurm_reservation_name (cb : CapacityBlock) : String :=
  SLURM_RESERVATION_NAME_PREFIX_STR ++ cb.capacity_block_id

/-- `CapacityBlock.state`: reads `_capacity_block_reservation_info.state()`.
`none` models the Python `AttributeError` raised when the info was never set. -/
def CapacityBlock.state (cb : CapacityBlock) : Option String :=
  cb.capacity_block_reservation_info

/-- `CapacityBlock.is_active`: `state() == "active"`; `none` propagates the
`AttributeError` of `state()` on a never-updated record. -/
def CapacityBlock.is_active (cb : CapacityBlock) : Option Bool :=
  cb.state.map (fun s => s == "active")

/-- `CapacityBlock.does_node_belong_to`: queue and compute resource both match. -/
def CapacityBlock.does_node_belong_to (cb : CapacityBlock) (node : SlurmNode) : Bool :=
  node.queue_name == cb.queue_name && node.compute_resource_name == cb.compute_resource_name

/-- `CapacityBlock.add_nodename`: append a node name to the bound list. -/
def CapacityBlock.add_nodename (cb : CapacityBlock) (nodename : String) : CapacityBlock :=
  { cb with nodenames := cb.nodenames ++ [nodename] }

/-- `CapacityBlock.slurm_reservation_name_to_id`: Python slice
`name[len(SLURM_RESERVATION_NAME_PREFIX):]`. -/
def slurm_reservation_name_to_id (slurm_reservation_name : String) : String :=
  slurm_reservation_name.drop SLURM_RESERVATION_NAME_PREFIX_STR.length

/-- `CapacityBlock.is_capacity_block_slurm_reservation`: name starts with the marker. -/
def is_capacity_block_slurm_reservation (slurm_reservation_name : String) : Bool :=
  slurm_reservation_name.startsWith SLURM_RESERVATION_NAME_PREFIX_STR

/-- A slurm reservation as returned by `get_slurm_reservations_info` (only
`name` and `nodes` are read by this module). -/
structure SlurmReservation where
  name : String
  nodes : String
deriving DecidableEq

/-- Trace of calls issued to the external collaborators (EC2 and slurm). -/
inductive ExtCall where
  | describeCloud (ids : List String)
  | schedExists (name : String)
  | schedCreate (name : String) (nodes : String)
  | schedUpdate (name : String) (nodes : String)
  | schedDelete (name : String)
  | schedList
deriving DecidableEq

/-- Modelled from the spec: scheduler command `create(name, startTime, nodeNames)`
(§6); `create_slurm_reservation` lives outside this file. Adds a reservation. -/
def applyCreate (sched : List SlurmReservation) (name nodes : String) :
    List SlurmReservation :=
  sched ++ [⟨name, nodes⟩]

/-- Modelled from the spec: scheduler command `update(name, nodeNames)` (§6);
`update_slurm_reservation` lives outside this file. Overwrites node membership. -/
def applyUpdate (sched : List SlurmReservation) (name nodes : String) :
    List SlurmReservation :=
  sched.map (fun r => if r.name == name then { r with nodes := nodes } else r)

/-- Modelled from the spec: scheduler command `delete(name)` (§6);
`delete_slurm_reservation` lives outside this file. Removes the reservation. -/
def applyDelete (sched : List SlurmReservation) (name : String) :
    List SlurmReservation :=
  sched.filter (fun r => !(r.name == name))

/-- Modelled from the spec: scheduler query `exists(name) -> bool` (§6);
`does_slurm_reservation_exist` lives outside this file. -/
def does_slurm_reservation_exist (sched : List SlurmReservation) (name : String) : Bool :=
  sched.any (fun r => r.name == name)

/-- Decidable equality for `Except`, used to evaluate concrete outcomes. -/
instance {e a : Type} [DecidableEq e] [DecidableEq a] : DecidableEq (Except e a) := by
  intro x y
  cases x with
  | error v =>
    cases y with
    | error w => exact decidable_of_iff (v = w) (by constructor <;> (intro h; cases h; rfl))
    | ok w => exact .isFalse (by intro h; cases h)
  | ok v =>
    cases y with
    | error w => exact .isFalse (by intro h; cases h)
    | ok w => exact decidable_of_iff (v = w) (by constructor <;> (intro h; cases h; rfl))

/-- Result of one reconciliation step or loop: the withheld-node outcome (or a
raised error), the scheduler state afterwards, and the calls issued. -/
structure ReconcileResult where
  result : Except Unit (List String)
  sched : List SlurmReservation
  calls : List ExtCall
deriving DecidableEq

/-- `CapacityBlockManager._update_slurm_reservation`: the existence check runs
first; then the active branch deletes an existing reservation, the non-active
branch updates an existing one or creates a fresh one and returns the bound
nodes. `is_active = none` models the `AttributeError` raised after the
existence check when the record never received EC2 info. -/
def update_slurm_reservation (cb : CapacityBlock) (sched : List SlurmReservation) :
    ReconcileResult :=
  let resName := cb.slurm_reservation_name
  let nodesStr := String.intercalate "," cb.nodenames
  let reservation_exists := does_slurm_reservation_exist sched resName
  match cb.is_active with
  | none => ⟨.error (), sched, [.schedExists resName]⟩
  | some true =>
    if reservation_exists then
      ⟨.ok [], applyDelete sched resName, [.schedExists resName, .schedDelete resName]⟩
    else
      ⟨.ok [], sched, [.schedExists resName]⟩
  | some false =>
    if reservation_exists then
      ⟨.ok cb.nodenames, applyUpdate sched resName nodesStr,
        [.schedExists resName, .schedUpdate resName nodesStr]⟩
    else
      ⟨.ok cb.nodenames, applyCreate sched resName nodesStr,
        [.schedExists resName, .schedCreate resName nodesStr]⟩

/-- The loop of `get_reserved_nodenames` lines 142-143: reconcile every
capacity block in dict-value order, extending the withheld list; an error
aborts the loop (the partial withheld list is discarded, the scheduler
mutations so far are kept). -/
def reconcile_all : List CapacityBlock → List SlurmReservation → ReconcileResult
  | [], sched => ⟨.ok [], sched, []⟩
  | cb :: rest, sched =>
    let r := update_slurm_reservation cb sched
    match r.result with
    | .error e => ⟨.error e, r.sched, r.calls⟩
    | .ok ns =>
      let rr := reconcile_all rest r.sched
      match rr.result with
      | .error e => ⟨.error e, rr.sched, r.calls ++ rr.calls⟩
      | .ok ms => ⟨.ok (ns ++ ms), rr.sched, r.calls ++ rr.calls⟩

/-- Loop body of `_cleanup_leftover_slurm_reservations`: iterate over the
snapshot returned by `get_slurm_reservations_info`, deleting every
marker-named reservation whose recovered id is not a current dict key. -/
def cleanup_go (keys : List String) :
    List SlurmReservation → List SlurmReservation → List ExtCall →
    List SlurmReservation × List ExtCall
  | [], live, calls => (live, calls)
  | r :: rest, live, calls =>
    if is_capacity_block_slurm_reservation r.name then
      if keys.contains (slurm_reservation_name_to_id r.name) then
        cleanup_go keys rest live calls
      else
        cleanup_go keys rest (applyDelete live r.name) (calls ++ [ExtCall.schedDelete r.name])
    else
      cleanup_go keys rest live calls

/-- `CapacityBlockManager._cleanup_leftover_slurm_reservations`: list all slurm
reservations, then sweep the marker-named stale ones. -/
def cleanup_leftover_slurm_reservations (capacity_blocks : List (String × CapacityBlock))
    (sched : List SlurmReservation) : List SlurmReservation × List ExtCall :=
  cleanup_go (capacity_blocks.map Prod.fst) sched sched [ExtCall.schedList]

/-- Compute resource entry of the fleet config: only the two fields this module
reads. `capacityType = none` models an absent `CapacityType` key (Python
`dict.get` then returns the `CapacityType.ONDEMAND` enum default);
`capacityReservationId = none` models an absent `CapacityReservationId` key. -/
structure ComputeResourceConfig where
  capacityType : Option String
  capacityReservationId : Option String
deriving DecidableEq

/-- Fleet config: queue name to compute-resource name to config, as an
insertion-ordered nested association list. -/
abbrev FleetConfig := List (String × List (String × ComputeResourceConfig))

/-- `CapacityBlockManager._is_compute_resource_associated_to_capacity_block`:
`config.get("CapacityType", CapacityType.ONDEMAND) == CapacityType.CAPACITY_BLOCK.value`.
When the key is absent the default is the enum object, which never equals the
string `"capacity-block"`, so the comparison is `False`. -/
def is_compute_resource_associated_to_capacity_block (cfg : ComputeResourceConfig) : Bool :=
  match cfg.capacityType with
  | none => false
  | some s => s == "capacity-block"

/-- `CapacityBlockManager._capacity_reservation_id_from_compute_resource_config`:
`config["CapacityReservationId"]`, raising `KeyError` when absent. -/
def capacity_reservation_id_from_compute_resource_config (cfg : ComputeResourceConfig) :
    Except Unit String :=
  match cfg.capacityReservationId with
  | none => .error ()
  | some id => .ok id

/-- Python dict update `d[k] = v` preserving insertion order: replace in place
when the key exists, append otherwise. -/
def dictInsert (k : String) (v : CapacityBlock) :
    List (String × CapacityBlock) → List (String × CapacityBlock)
  | [] => [(k, v)]
  | (k1, v1) :: rest => if k1 == k then (k, v) :: rest else (k1, v1) :: dictInsert k v rest

/-- Inner loop of `_capacity_blocks_from_config` over one queue's compute
resources, threading the accumulated dict and propagating `KeyError`. -/
def cbs_from_crs (queue_name : String) :
    List (String × ComputeResourceConfig) → List (String × CapacityBlock) →
    Except Unit (List (String × CapacityBlock))
  | [], acc => .ok acc
  | (cr_name, cfg) :: rest, acc =>
    if is_compute_resource_associated_to_capacity_block cfg then
      match capacity_reservation_id_from_compute_resource_config cfg with
      | .error e => .error e
      | .ok id =>
        cbs_from_crs queue_name rest (dictInsert id ⟨id, queue_name, cr_name, none, []⟩ acc)
    else
      cbs_from_crs queue_name rest acc

/-- Outer loop of `_capacity_blocks_from_config` over the queues. -/
def cbs_from_fleet : FleetConfig → List (String × CapacityBlock) →
    Except Unit (List (String × CapacityBlock))
  | [], acc => .ok acc
  | (queue_name, crs) :: rest, acc =>
    match cbs_from_crs queue_name crs acc with
    | .error e => .error e
    | .ok acc1 => cbs_from_fleet rest acc1

/-- `CapacityBlockManager._capacity_blocks_from_config`: build the id-keyed
dict of capacity blocks from the fleet config, raising on a capacity-block
entry with no reservation id. -/
def capacity_blocks_from_config (fleet : FleetConfig) :
    Except Unit (List (String × CapacityBlock)) :=
  cbs_from_fleet fleet []

/-- Set the EC2 info of the capacity block stored under `id`
(`self._capacity_blocks[id].update_ec2_info(info)`). -/
def dictSetInfo (cbs : List (String × CapacityBlock)) (id st : String) :
    List (String × CapacityBlock) :=
  cbs.map (fun p =>
    if p.1 == id then (p.1, { p.2 with capacity_block_reservation_info := some st }) else p)

/-- Merge loop of `_update_capacity_blocks_info_from_ec2` lines 263-265: each
returned `(id, state)` pair is written into the dict; an id that is not a dict
key raises `KeyError`, keeping the updates already applied. -/
def merge_ec2_infos : List (String × CapacityBlock) → List (String × String) →
    List (String × CapacityBlock) × Except Unit Unit
  | cbs, [] => (cbs, .ok ())
  | cbs, (id, st) :: rest =>
    if cbs.any (fun p => p.1 == id) then merge_ec2_infos (dictSetInfo cbs id st) rest
    else (cbs, .error ())

/-- Mutable state of a `CapacityBlockManager` instance: the id-keyed capacity
block dict, the last refresh timestamp (seconds; `none` at construction), and
the cached withheld-node list. The fleet config is constructor-injected and
immutable, so it is passed separately. -/
structure ManagerState where
  capacity_blocks : List (String × CapacityBlock)
  capacity_blocks_update_time : Option Nat
  reserved_nodenames : List String
deriving DecidableEq

/-- Modelled from the spec: `common.time_utils.seconds_to_minutes` is outside
this file; the spec fixes the policy as elapsed time in minutes (§4.6). -/
def seconds_to_minutes (s : Nat) : Nat := s / 60

/-- The `is_time_to_update` expression of `get_reserved_nodenames` lines
128-132: Python `t and minutes(now - t) > PERIOD`; with `t = None` the `and`
short-circuits to a falsy value, so the branch is not taken. -/
def is_time_to_update (t : Option Nat) (now : Nat) : Bool :=
  match t with
  | none => false
  | some t0 => seconds_to_minutes (now - t0) > CAPACITY_BLOCK_RESERVATION_UPDATE_PERIOD

/-- `CapacityBlockManager._update_capacity_blocks_info_from_ec2`: overwrite
`_capacity_blocks` from config first; if non-empty, issue the describe call
(`cloud` is its outcome) and merge the response; finally set the timestamp.
A config error leaves the state untouched; a cloud error leaves the already
overwritten dict in place with the old timestamp. -/
def update_capacity_blocks_info_from_ec2 (fleet : FleetConfig) (st : ManagerState)
    (cloud : Except Unit (List (String × String))) (now : Nat) :
    ManagerState × List ExtCall × Except Unit Unit :=
  match capacity_blocks_from_config fleet with
  | .error e => (st, [], .error e)
  | .ok cbs =>
    if cbs.isEmpty then
      ({ st with capacity_blocks := cbs, capacity_blocks_update_time := some now }, [], .ok ())
    else
      match cloud with
      | .error e =>
        ({ st with capacity_blocks := cbs }, [.describeCloud (cbs.map Prod.fst)], .error e)
      | .ok infos =>
        match merge_ec2_infos cbs infos with
        | (cbs1, .error e) =>
          ({ st with capacity_blocks := cbs1 }, [.describeCloud (cbs.map Prod.fst)], .error e)
        | (cbs1, .ok _) =>
          ({ st with capacity_blocks := cbs1, capacity_blocks_update_time := some now },
            [.describeCloud (cbs.map Prod.fst)], .ok ())

/-- One node of `_associate_nodenames_to_capacity_blocks`: scan dict values in
order and add the node name to the first matching capacity block (`break`). -/
def add_nodename_to_first : List (String × CapacityBlock) → SlurmNode →
    List (String × CapacityBlock)
  | [], _ => []
  | (k, cb) :: rest, node =>
    if cb.does_node_belong_to node then (k, cb.add_nodename node.name) :: rest
    else (k, cb) :: add_nodename_to_first rest node

/-- `CapacityBlockManager._associate_nodenames_to_capacity_blocks`. -/
def associate_nodenames_to_capacity_blocks (cbs : List (String × CapacityBlock))
    (nodes : List SlurmNode) : List (String × CapacityBlock) :=
  nodes.foldl add_nodename_to_first cbs

/-- Outcome of one `get_reserved_nodenames` tick: manager state afterwards,
scheduler state afterwards, calls issued, and the returned list (or the
propagated error). -/
structure TickResult where
  state : ManagerState
  sched : List SlurmReservation
  calls : List ExtCall
  result : Except Unit (List String)
deriving DecidableEq

/-- `CapacityBlockManager.get_reserved_nodenames`: when `is_time_to_update` is
truthy run the refresh pipeline (EC2 refresh, node binding, per-block slurm
reconciliation, cache assignment, leftover sweep), otherwise return the cached
list unchanged. -/
def get_reserved_nodenames (fleet : FleetConfig) (st : ManagerState)
    (nodes : List SlurmNode) (now : Nat) (cloud : Except Unit (List (String × String)))
    (sched : List SlurmReservation) : TickResult :=
  if is_time_to_update st.capacity_blocks_update_time now then
    match update_capacity_blocks_info_from_ec2 fleet st cloud now with
    | (st1, calls1, .error e) => ⟨st1, sched, calls1, .error e⟩
    | (st1, calls1, .ok _) =>
      let st2 := { st1 with
        capacity_blocks := associate_nodenames_to_capacity_blocks st1.capacity_blocks nodes }
      let rr := reconcile_all (st2.capacity_blocks.map Prod.snd) sched
      match rr.result with
      | .error e => ⟨st2, rr.sched, calls1 ++ rr.calls, .error e⟩
      | .ok reserved =>
        let st3 := { st2 with reserved_nodenames := reserved }
        let swept := cleanup_leftover_slurm_reservations st3.capacity_blocks rr.sched
        ⟨st3, swept.1, calls1 ++ rr.calls ++ swept.2, .ok reserved⟩
  else
    ⟨st, sched, [], .ok st.reserved_nodenames⟩

/-- A slurm reservation name the sweep regards as stale: it carries the
reserved marker and its recovered id is not a current dict key. -/
def is_leftover (keys : List String) (resName : String) : Bool :=
  is_capacity_block_slurm_reservation resName &&
    !(keys.contains (slurm_reservation_name_to_id resName))

/-- Scheduler mutation calls: create, update or delete. -/
def is_mutation_call : ExtCall → Bool
  | .schedCreate _ _ => true
  | .schedUpdate _ _ => true
  | .schedDelete _ => true
  | _ => false

/-- Scheduler create or delete calls. -/
def is_create_or_delete_call : ExtCall → Bool
  | .schedCreate _ _ => true
  | .schedDelete _ => true
  | _ => false

/-- The EC2 describe call. -/
def is_describe_call : ExtCall → Bool
  | .describeCloud _ => true
  | _ => false

/-- A capacity block is reconciled against a scheduler state when an active
block has no slurm reservation and a known non-active block has one. -/
def reconciled (cb : CapacityBlock) (sched : List SlurmReservation) : Prop :=
  (cb.is_active = some true →
    does_slurm_reservation_exist sched cb.slurm_reservation_name = false) ∧
  (cb.is_active = some false →
    does_slurm_reservation_exist sched cb.slurm_reservation_name = true)

/-! Helper lemmas. -/

theorem name_to_id_of_name (cb : CapacityBlock) :
    slurm_reservation_name_to_id cb.slurm_reservation_name = cb.capacity_block_id := by
  apply String.ext
  show ((SLURM_RESERVATION_NAME_PREFIX_STR ++ cb.capacity_block_id).drop
      SLURM_RESERVATION_NAME_PREFIX_STR.length).data = cb.capacity_block_id.data
  rw [String.data_drop, String.data_append]
  exact List.drop_left _ _

theorem exist_applyDelete (s : List SlurmReservation) (n m : String) :
    does_slurm_reservation_exist (applyDelete s m) n =
      (does_slurm_reservation_exist s n && !(n == m)) := by
  apply Bool.eq_iff_iff.mpr
  simp only [does_slurm_reservation_exist, applyDelete, List.any_filter, Bool.and_eq_true,
    List.any_eq_true, Bool.not_eq_true', beq_eq_false_iff_ne, beq_iff_eq, ne_eq]
  constructor
  · rintro ⟨r, hr, hrm, hrn⟩
    exact ⟨⟨r, hr, hrn⟩, fun h => hrm (hrn.trans h)⟩
  · rintro ⟨⟨r, hr, hrn⟩, hnm⟩
    exact ⟨r, hr, fun h => hnm (hrn.symm.trans h), hrn⟩

theorem exist_applyUpdate (s : List SlurmReservation) (n m v : String) :
    does_slurm_reservation_exist (applyUpdate s m v) n = does_slurm_reservation_exist s n := by
  apply Bool.eq_iff_iff.mpr
  simp only [does_slurm_reservation_exist, applyUpdate, List.any_map, List.any_eq_true,
    Function.comp]
  constructor
  · rintro ⟨r, hr, h⟩
    refine ⟨r, hr, ?_⟩
    by_cases hrm : r.name == m
    · simpa [hrm] using h
    · simpa [hrm] using h
  · rintro ⟨r, hr, h⟩
    refine ⟨r, hr, ?_⟩
    by_cases hrm : r.name == m
    · simpa [hrm] using h
    · simpa [hrm] using h

theorem exist_applyCreate (s : List SlurmReservation) (n m v : String) :
    does_slurm_reservation_exist (applyCreate s m v) n =
      (does_slurm_reservation_exist s n || m == n) := by
  simp [does_slurm_reservation_exist, applyCreate]

/-! Theorems for the claims. -/

/-- Claim C1: the spec says the first call to `get_reserved_nodenames` (no
prior refresh timestamp) runs the full refresh pipeline. The code does the
opposite: with `_capacity_blocks_update_time = None` the Python expression
`None and ...` is falsy, so the pipeline is skipped, no external call is made,
the state is unchanged and the initial cached list is returned. -/
theorem first_call_skips_refresh (fleet : FleetConfig) (cbs : List (String × CapacityBlock))
    (rn : List String) (nodes : List SlurmNode) (now : Nat)
    (cloud : Except Unit (List (String × String))) (sched : List SlurmReservation) :
    get_reserved_nodenames fleet ⟨cbs, none, rn⟩ nodes now cloud sched =
      ⟨⟨cbs, none, rn⟩, sched, [], .ok rn⟩ := by
  simp [get_reserved_nodenames, is_time_to_update]

/-- Claim C9: deriving the slurm reservation name (fixed marker ++ id) and
recovering the id from the suffix round-trips, hence the derivation is
injective over capacity block ids. -/
theorem reservation_name_roundtrip_injective (cb1 cb2 : CapacityBlock) :
    slurm_reservation_name_to_id cb1.slurm_reservation_name = cb1.capacity_block_id ∧
    (cb1.slurm_reservation_name = cb2.slurm_reservation_name →
      cb1.capacity_block_id = cb2.capacity_block_id) := by
  refine ⟨name_to_id_of_name cb1, fun h => ?_⟩
  have h2 := congrArg slurm_reservation_name_to_id h
  rwa [name_to_id_of_name, name_to_id_of_name] at h2

/-- Witness for C9 at a concrete id. -/
theorem reservation_name_roundtrip_injective_witness :
    slurm_reservation_name_to_id
        (CapacityBlock.slurm_reservation_name ⟨"cb-123", "q1", "cr1", none, []⟩) = "cb-123" ∧
    ("cb-123" : String) = "cb-123" :=
  ⟨(reservation_name_roundtrip_injective ⟨"cb-123", "q1", "cr1", none, []⟩
      ⟨"cb-123", "q2", "cr2", none, []⟩).1,
    (reservation_name_roundtrip_injective ⟨"cb-123", "q1", "cr1", none, []⟩
      ⟨"cb-123", "q2", "cr2", none, []⟩).2 rfl⟩

theorem cbs_from_crs_error_of_bad_entry (q cr : String)
    (crsA crsB : List (String × ComputeResourceConfig)) :
    ∀ acc, cbs_from_crs q (crsA ++ (cr, ⟨some "capacity-block", none⟩) :: crsB) acc =
      .error () := by
  induction crsA with
  | nil =>
    intro acc
    simp [cbs_from_crs, is_compute_resource_associated_to_capacity_block,
      capacity_reservation_id_from_compute_resource_config]
  | cons head tail ih =>
    intro acc
    obtain ⟨crn, cfg⟩ := head
    simp only [List.cons_append, cbs_from_crs]
    split
    · cases hid : capacity_reservation_id_from_compute_resource_config cfg with
      | error e => cases e; rfl
      | ok id => exact ih _
    · exact ih _

theorem cbs_from_fleet_error_of_bad_queue (q : String)
    (crs : List (String × ComputeResourceConfig))
    (h : ∀ acc, cbs_from_crs q crs acc = .error ())
    (fleetA fleetB : FleetConfig) :
    ∀ acc, cbs_from_fleet (fleetA ++ (q, crs) :: fleetB) acc = .error () := by
  induction fleetA with
  | nil =>
    intro acc
    simp only [List.nil_append, cbs_from_fleet, h acc]
  | cons head tail ih =>
    intro acc
    obtain ⟨qn, crs1⟩ := head
    simp only [List.cons_append, cbs_from_fleet]
    cases hcr : cbs_from_crs qn crs1 acc with
    | error e => cases e; rfl
    | ok acc1 => exact ih _

/-- Claim C5: a compute resource declaring the capacity-block type but lacking
a reservation id makes the projector raise (`KeyError`), and the refresh
entry point `_update_capacity_blocks_info_from_ec2` propagates the error to
its caller with the manager state untouched; the entry is never skipped and no
record with a guessed id is produced. -/
theorem missing_reservation_id_raises (fleetA fleetB : FleetConfig) (q cr : String)
    (crsA crsB : List (String × ComputeResourceConfig)) (st : ManagerState)
    (cloud : Except Unit (List (String × String))) (now : Nat) :
    capacity_blocks_from_config
        (fleetA ++ (q, crsA ++ (cr, ⟨some "capacity-block", none⟩) :: crsB) :: fleetB) =
      .error () ∧
    update_capacity_blocks_info_from_ec2
        (fleetA ++ (q, crsA ++ (cr, ⟨some "capacity-block", none⟩) :: crsB) :: fleetB)
        st cloud now = (st, [], .error ()) := by
  have hcfg : capacity_blocks_from_config
      (fleetA ++ (q, crsA ++ (cr, ⟨some "capacity-block", none⟩) :: crsB) :: fleetB) =
      .error () :=
    cbs_from_fleet_error_of_bad_queue q _ (cbs_from_crs_error_of_bad_entry q cr crsA crsB)
      fleetA fleetB []
  refine ⟨hcfg, ?_⟩
  unfold update_capacity_blocks_info_from_ec2
  rw [hcfg]

theorem cbs_from_crs_skip_entry (q cr : String) (rid : Option String)
    (crsA crsB : List (String × ComputeResourceConfig)) :
    ∀ acc, cbs_from_crs q (crsA ++ (cr, ⟨none, rid⟩) :: crsB) acc =
      cbs_from_crs q (crsA ++ crsB) acc := by
  induction crsA with
  | nil =>
    intro acc
    simp [cbs_from_crs, is_compute_resource_associated_to_capacity_block]
  | cons head tail ih =>
    intro acc
    obtain ⟨crn, cfg⟩ := head
    simp only [List.cons_append, cbs_from_crs]
    split
    · cases hid : capacity_reservation_id_from_compute_resource_config cfg with
      | error e => rfl
      | ok id => exact ih _
    · exact ih _

theorem cbs_from_fleet_congr_queue (q : String)
    (crsX crsY : List (String × ComputeResourceConfig))
    (h : ∀ acc, cbs_from_crs q crsX acc = cbs_from_crs q crsY acc)
    (fleetA fleetB : FleetConfig) :
    ∀ acc, cbs_from_fleet (fleetA ++ (q, crsX) :: fleetB) acc =
      cbs_from_fleet (fleetA ++ (q, crsY) :: fleetB) acc := by
  induction fleetA with
  | nil =>
    intro acc
    simp only [List.nil_append, cbs_from_fleet, h acc]
  | cons head tail ih =>
    intro acc
    obtain ⟨qn, crs1⟩ := head
    simp only [List.cons_append, cbs_from_fleet]
    cases hcr : cbs_from_crs qn crs1 acc with
    | error e => rfl
    | ok acc1 => exact ih _

theorem update_from_ec2_fleet_congr (f1 f2 : FleetConfig)
    (h : capacity_blocks_from_config f1 = capacity_blocks_from_config f2)
    (st : ManagerState) (cloud : Except Unit (List (String × String))) (now : Nat) :
    update_capacity_blocks_info_from_ec2 f1 st cloud now =
      update_capacity_blocks_info_from_ec2 f2 st cloud now := by
  unfold update_capacity_blocks_info_from_ec2
  rw [h]

theorem get_reserved_fleet_congr (f1 f2 : FleetConfig)
    (h : capacity_blocks_from_config f1 = capacity_blocks_from_config f2)
    (st : ManagerState) (nodes : List SlurmNode) (now : Nat)
    (cloud : Except Unit (List (String × String))) (sched : List SlurmReservation) :
    get_reserved_nodenames f1 st nodes now cloud sched =
      get_reserved_nodenames f2 st nodes now cloud sched := by
  unfold get_reserved_nodenames
  rw [update_from_ec2_fleet_congr f1 f2 h st cloud now]

/-- Claim C10: a compute resource config with no capacity-type field is
classified as not capacity-block-backed (the `dict.get` default is the
on-demand enum, which never equals the capacity-block marker string), so the
projector produces no record for it and raises no error, and the whole
engine behaves as if the entry were absent — in particular its nodes are
never withheld. -/
theorem absent_capacity_type_ignored (rid : Option String) (fleetA fleetB : FleetConfig)
    (q cr : String) (crsA crsB : List (String × ComputeResourceConfig))
    (st : ManagerState) (nodes : List SlurmNode) (now : Nat)
    (cloud : Except Unit (List (String × String))) (sched : List SlurmReservation) :
    is_compute_resource_associated_to_capacity_block ⟨none, rid⟩ = false ∧
    capacity_blocks_from_config (fleetA ++ (q, crsA ++ (cr, ⟨none, rid⟩) :: crsB) :: fleetB) =
      capacity_blocks_from_config (fleetA ++ (q, crsA ++ crsB) :: fleetB) ∧
    get_reserved_nodenames (fleetA ++ (q, crsA ++ (cr, ⟨none, rid⟩) :: crsB) :: fleetB)
        st nodes now cloud sched =
      get_reserved_nodenames (fleetA ++ (q, crsA ++ crsB) :: fleetB) st nodes now cloud sched := by
  have hcfg : capacity_blocks_from_config
      (fleetA ++ (q, crsA ++ (cr, ⟨none, rid⟩) :: crsB) :: fleetB) =
      capacity_blocks_from_config (fleetA ++ (q, crsA ++ crsB) :: fleetB) :=
    cbs_from_fleet_congr_queue q _ _ (cbs_from_crs_skip_entry q cr rid crsA crsB) fleetA fleetB []
  exact ⟨rfl, hcfg, get_reserved_fleet_congr _ _ hcfg st nodes now cloud sched⟩

theorem exist_applyDelete_self (s : List SlurmReservation) (n : String) :
    does_slurm_reservation_exist (applyDelete s n) n = false := by
  simp [exist_applyDelete]

/-- Claim C6: for a record in `active` state the reconciler returns no
withheld nodes, deletes the slurm reservation exactly when it exists (and
issues no other mutation), and a second reconciliation with no state change
issues only the existence check and no further delete. -/
theorem active_block_reconciliation (cb : CapacityBlock) (sched : List SlurmReservation)
    (h : cb.capacity_block_reservation_info = some "active") :
    (update_slurm_reservation cb sched).result = .ok [] ∧
    (update_slurm_reservation cb sched).calls =
      .schedExists cb.slurm_reservation_name ::
        (if does_slurm_reservation_exist sched cb.slurm_reservation_name then
          [ExtCall.schedDelete cb.slurm_reservation_name]
        else []) ∧
    (update_slurm_reservation cb sched).sched =
      (if does_slurm_reservation_exist sched cb.slurm_reservation_name then
        applyDelete sched cb.slurm_reservation_name
      else sched) ∧
    does_slurm_reservation_exist (update_slurm_reservation cb sched).sched
      cb.slurm_reservation_name = false ∧
    (update_slurm_reservation cb (update_slurm_reservation cb sched).sched).calls =
      [ExtCall.schedExists cb.slurm_reservation_name] ∧
    (update_slurm_reservation cb (update_slurm_reservation cb sched).sched).sched =
      (update_slurm_reservation cb sched).sched ∧
    (update_slurm_reservation cb (update_slurm_reservation cb sched).sched).result = .ok [] := by
  have hact : cb.is_active = some true := by
    simp [CapacityBlock.is_active, CapacityBlock.state, h]
  by_cases hE : does_slurm_reservation_exist sched cb.slurm_reservation_name
  · have h1 : update_slurm_reservation cb sched =
        ⟨.ok [], applyDelete sched cb.slurm_reservation_name,
          [.schedExists cb.slurm_reservation_name, .schedDelete cb.slurm_reservation_name]⟩ := by
      simp [update_slurm_reservation, hact, hE]
    have h2 : does_slurm_reservation_exist (applyDelete sched cb.slurm_reservation_name)
        cb.slurm_reservation_name = false := exist_applyDelete_self sched _
    have h3 : update_slurm_reservation cb (applyDelete sched cb.slurm_reservation_name) =
        ⟨.ok [], applyDelete sched cb.slurm_reservation_name,
          [.schedExists cb.slurm_reservation_name]⟩ := by
      simp [update_slurm_reservation, hact, h2]
    simp [h1, h2, h3, hE]
  · have h1 : update_slurm_reservation cb sched =
        ⟨.ok [], sched, [.schedExists cb.slurm_reservation_name]⟩ := by
      simp [update_slurm_reservation, hact, hE]
    simp [h1, hE, eq_false_of_ne_true hE]

/-- Witness for C6: an active block with an existing reservation. -/
theorem active_block_reconciliation_witness :
    (update_slurm_reservation ⟨"cb-1", "q1", "cr1", some "active", ["n1"]⟩
        [⟨"pcluster-cb-1", "n1"⟩]).result = .ok [] ∧
    (update_slurm_reservation ⟨"cb-1", "q1", "cr1", some "active", ["n1"]⟩
        [⟨"pcluster-cb-1", "n1"⟩]).calls =
      .schedExists (CapacityBlock.slurm_reservation_name
          ⟨"cb-1", "q1", "cr1", some "active", ["n1"]⟩) ::
        (if does_slurm_reservation_exist [⟨"pcluster-cb-1", "n1"⟩]
            (CapacityBlock.slurm_reservation_name
              ⟨"cb-1", "q1", "cr1", some "active", ["n1"]⟩) then
          [ExtCall.schedDelete (CapacityBlock.slurm_reservation_name
            ⟨"cb-1", "q1", "cr1", some "active", ["n1"]⟩)]
        else []) ∧
    (update_slurm_reservation ⟨"cb-1", "q1", "cr1", some "active", ["n1"]⟩
        [⟨"pcluster-cb-1", "n1"⟩]).sched =
      (if does_slurm_reservation_exist [⟨"pcluster-cb-1", "n1"⟩]
          (CapacityBlock.slurm_reservation_name
            ⟨"cb-1", "q1", "cr1", some "active", ["n1"]⟩) then
        applyDelete [⟨"pcluster-cb-1", "n1"⟩]
          (CapacityBlock.slurm_reservation_name
            ⟨"cb-1", "q1", "cr1", some "active", ["n1"]⟩)
      else [⟨"pcluster-cb-1", "n1"⟩]) ∧
    does_slurm_reservation_exist
      (update_slurm_reservation ⟨"cb-1", "q1", "cr1", some "active", ["n1"]⟩
        [⟨"pcluster-cb-1", "n1"⟩]).sched
      (CapacityBlock.slurm_reservation_name
        ⟨"cb-1", "q1", "cr1", some "active", ["n1"]⟩) = false ∧
    (update_slurm_reservation ⟨"cb-1", "q1", "cr1", some "active", ["n1"]⟩
        (update_slurm_reservation ⟨"cb-1", "q1", "cr1", some "active", ["n1"]⟩
          [⟨"pcluster-cb-1", "n1"⟩]).sched).calls =
      [ExtCall.schedExists (CapacityBlock.slurm_reservation_name
        ⟨"cb-1", "q1", "cr1", some "active", ["n1"]⟩)] ∧
    (update_slurm_reservation ⟨"cb-1", "q1", "cr1", some "active", ["n1"]⟩
        (update_slurm_reservation ⟨"cb-1", "q1", "cr1", some "active", ["n1"]⟩
          [⟨"pcluster-cb-1", "n1"⟩]).sched).sched =
      (update_slurm_reservation ⟨"cb-1", "q1", "cr1", some "active", ["n1"]⟩
        [⟨"pcluster-cb-1", "n1"⟩]).sched ∧
    (update_slurm_reservation ⟨"cb-1", "q1", "cr1", some "active", ["n1"]⟩
        (update_slurm_reservation ⟨"cb-1", "q1", "cr1", some "active", ["n1"]⟩
          [⟨"pcluster-cb-1", "n1"⟩]).sched).result = .ok [] :=
  active_block_reconciliation ⟨"cb-1", "q1", "cr1", some "active", ["n1"]⟩
    [⟨"pcluster-cb-1", "n1"⟩] rfl

theorem cleanup_go_calls (keys : List String) (snap : List SlurmReservation) :
    ∀ live calls, (cleanup_go keys snap live calls).2 =
      calls ++ (snap.filter (fun r => is_leftover keys r.name)).map
        (fun r => ExtCall.schedDelete r.name) := by
  induction snap with
  | nil => intro live calls; simp [cleanup_go]
  | cons r rest ih =>
    intro live calls
    simp only [cleanup_go]
    by_cases hcb : is_capacity_block_slurm_reservation r.name
    · by_cases hct : keys.contains (slurm_reservation_name_to_id r.name)
      · have hlf : is_leftover keys r.name = false := by
          unfold is_leftover
          rw [hcb, hct]
          rfl
        rw [List.filter_cons_of_neg (by simp [hlf])]
        simp only [hcb, hct, if_true]
        exact ih live calls
      · have hlf : is_leftover keys r.name = true := by
          unfold is_leftover
          rw [hcb, eq_false_of_ne_true hct]
          rfl
        rw [List.filter_cons_of_pos (by simp [hlf])]
        simp only [hcb, hct, if_true, if_false, Bool.false_eq_true]
        rw [ih]
        simp
    · have hlf : is_leftover keys r.name = false := by
        unfold is_leftover
        rw [eq_false_of_ne_true hcb]
        rfl
      rw [List.filter_cons_of_neg (by simp [hlf])]
      simp only [hcb, if_false, Bool.false_eq_true]
      exact ih live calls

theorem cleanup_go_live (keys : List String) (snap : List SlurmReservation) :
    ∀ live calls, (cleanup_go keys snap live calls).1 =
      live.filter (fun x => snap.all
        (fun r => !(is_leftover keys r.name && r.name == x.name))) := by
  induction snap with
  | nil =>
    intro live calls
    simp [cleanup_go]
  | cons r rest ih =>
    intro live calls
    simp only [cleanup_go]
    by_cases hcb : is_capacity_block_slurm_reservation r.name
    · by_cases hct : keys.contains (slurm_reservation_name_to_id r.name)
      · have hlf : is_leftover keys r.name = false := by
          unfold is_leftover
          rw [hcb, hct]
          rfl
        simp only [hcb, hct, if_true, ih]
        apply List.filter_congr
        intro x _
        simp [List.all_cons, hlf]
      · have hlf : is_leftover keys r.name = true := by
          unfold is_leftover
          rw [hcb, eq_false_of_ne_true hct]
          rfl
        simp only [hcb, hct, if_true, if_false, Bool.false_eq_true, ih, applyDelete,
          List.filter_filter]
        apply List.filter_congr
        intro x _
        simp only [List.all_cons, hlf, Bool.true_and]
        rw [Bool.and_comm]
        have hbeq : (x.name == r.name) = (r.name == x.name) := by
          apply Bool.eq_iff_iff.mpr
          simp only [beq_iff_eq]
          exact eq_comm
        rw [hbeq]
    · have hlf : is_leftover keys r.name = false := by
        unfold is_leftover
        rw [eq_false_of_ne_true hcb]
        rfl
      simp only [hcb, if_false, Bool.false_eq_true, ih]
      apply List.filter_congr
      intro x _
      simp [List.all_cons, hlf]

/-- Claim C7: the sweep deletes exactly the reservations whose name carries
the reserved marker and whose recovered id is not a current dict key; every
marker-named reservation with a current id and every reservation without the
marker survives untouched. -/
theorem sweep_deletes_exactly_stale (capacity_blocks : List (String × CapacityBlock))
    (sched : List SlurmReservation) :
    (cleanup_leftover_slurm_reservations capacity_blocks sched).2 =
      ExtCall.schedList ::
        (sched.filter (fun r => is_leftover (capacity_blocks.map Prod.fst) r.name)).map
          (fun r => ExtCall.schedDelete r.name) ∧
    (cleanup_leftover_slurm_reservations capacity_blocks sched).1 =
      sched.filter (fun r => !is_leftover (capacity_blocks.map Prod.fst) r.name) := by
  constructor
  · rw [cleanup_leftover_slurm_reservations, cleanup_go_calls]
    rfl
  · rw [cleanup_leftover_slurm_reservations, cleanup_go_live]
    apply List.filter_congr
    intro x hx
    by_cases hlx : is_leftover (capacity_blocks.map Prod.fst) x.name
    · simp only [hlx, Bool.not_true]
      simp only [List.all_eq_false]
      exact ⟨x, hx, by simp [hlx]⟩
    · have hlx0 : is_leftover (capacity_blocks.map Prod.fst) x.name = false :=
        eq_false_of_ne_true hlx
      simp only [hlx0, Bool.not_false]
      simp only [List.all_eq_true]
      intro r hr
      by_cases hrx : r.name = x.name
      · rw [hrx, hlx0]
        simp
      · simp [hrx]

theorem cbs_from_crs_no_cb (q : String) (crs : List (String × ComputeResourceConfig))
    (h : crs.all
      (fun c => !(is_compute_resource_associated_to_capacity_block c.2)) = true) :
    ∀ acc, cbs_from_crs q crs acc = .ok acc := by
  induction crs with
  | nil => intro acc; rfl
  | cons head tail ih =>
    intro acc
    obtain ⟨crn, cfg⟩ := head
    simp only [List.all_cons, Bool.and_eq_true, Bool.not_eq_true'] at h
    simp only [cbs_from_crs, h.1, Bool.false_eq_true, if_false]
    exact ih h.2 acc

theorem cbs_from_fleet_no_cb (fleet : FleetConfig)
    (h : fleet.all (fun qc => qc.2.all
      (fun c => !(is_compute_resource_associated_to_capacity_block c.2))) = true) :
    ∀ acc, cbs_from_fleet fleet acc = .ok acc := by
  induction fleet with
  | nil => intro acc; rfl
  | cons head tail ih =>
    intro acc
    obtain ⟨qn, crs⟩ := head
    simp only [List.all_cons, Bool.and_eq_true] at h
    simp only [cbs_from_fleet, cbs_from_crs_no_cb qn crs h.1 acc]
    exact ih h.2 acc

theorem associate_nil (nodes : List SlurmNode) :
    associate_nodenames_to_capacity_blocks [] nodes = [] := by
  induction nodes with
  | nil => rfl
  | cons n rest ih =>
    simpa [associate_nodenames_to_capacity_blocks, add_nodename_to_first,
      List.foldl] using ih

theorem tick_of_empty_config (fleet : FleetConfig) (cbs : List (String × CapacityBlock))
    (t : Option Nat) (rn : List String) (nodes : List SlurmNode) (now : Nat)
    (cloud : Except Unit (List (String × String))) (sched : List SlurmReservation)
    (hok : capacity_blocks_from_config fleet = .ok [])
    (htime : is_time_to_update t now = true) :
    get_reserved_nodenames fleet ⟨cbs, t, rn⟩ nodes now cloud sched =
      ⟨⟨[], some now, []⟩, (cleanup_leftover_slurm_reservations [] sched).1,
        (cleanup_leftover_slurm_reservations [] sched).2, .ok []⟩ := by
  unfold get_reserved_nodenames update_capacity_blocks_info_from_ec2
  rw [hok]
  simp [htime, associate_nil, reconcile_all]

/-- Claim C8: with a fleet configuration containing zero capacity-block
compute resources, a refresh issues no EC2 describe call and returns an empty
withheld-node list. -/
theorem no_capacity_block_resources_no_describe (fleet : FleetConfig)
    (cbs : List (String × CapacityBlock)) (t : Option Nat) (rn : List String)
    (nodes : List SlurmNode) (now : Nat) (cloud : Except Unit (List (String × String)))
    (sched : List SlurmReservation)
    (hcfg : fleet.all (fun qc => qc.2.all
      (fun c => !(is_compute_resource_associated_to_capacity_block c.2))) = true)
    (htime : is_time_to_update t now = true) :
    (get_reserved_nodenames fleet ⟨cbs, t, rn⟩ nodes now cloud sched).result = .ok [] ∧
    (get_reserved_nodenames fleet ⟨cbs, t, rn⟩ nodes now cloud sched).calls.all
      (fun c => !(is_describe_call c)) = true := by
  have hok : capacity_blocks_from_config fleet = .ok [] := by
    unfold capacity_blocks_from_config
    exact cbs_from_fleet_no_cb fleet hcfg []
  rw [tick_of_empty_config fleet cbs t rn nodes now cloud sched hok htime]
  refine ⟨rfl, ?_⟩
  show (cleanup_leftover_slurm_reservations [] sched).2.all
    (fun c => !(is_describe_call c)) = true
  rw [cleanup_leftover_slurm_reservations, cleanup_go_calls]
  rw [List.all_eq_true]
  intro x hx
  rw [List.mem_append] at hx
  rcases hx with hx | hx
  · rw [List.mem_singleton] at hx
    subst hx
    rfl
  · rw [List.mem_map] at hx
    obtain ⟨r, hr, hrx⟩ := hx
    subst hrx
    rfl

/-- Witness for C8: an on-demand-only fleet, refresh due. -/
theorem no_capacity_block_resources_no_describe_witness :
    (get_reserved_nodenames [("q1", [("cr1", ⟨some "on-demand", none⟩)])]
        ⟨[], some 0, ["stale-node"]⟩ [] 6000 (.ok []) []).result = .ok [] ∧
    (get_reserved_nodenames [("q1", [("cr1", ⟨some "on-demand", none⟩)])]
        ⟨[], some 0, ["stale-node"]⟩ [] 6000 (.ok []) []).calls.all
      (fun c => !(is_describe_call c)) = true :=
  no_capacity_block_resources_no_describe [("q1", [("cr1", ⟨some "on-demand", none⟩)])]
    [] (some 0) ["stale-node"] [] 6000 (.ok []) [] (by decide) (by decide)

theorem step_preserves_other (cb : CapacityBlock) (sched : List SlurmReservation) (n : String)
    (h : n ≠ cb.slurm_reservation_name) :
    does_slurm_reservation_exist (update_slurm_reservation cb sched).sched n =
      does_slurm_reservation_exist sched n := by
  have hbn : (n == cb.slurm_reservation_name) = false := beq_eq_false_iff_ne.mpr h
  have hbn2 : (cb.slurm_reservation_name == n) = false := beq_eq_false_iff_ne.mpr (Ne.symm h)
  unfold update_slurm_reservation
  cases hia : cb.is_active with
  | none => rfl
  | some b =>
    cases b with
    | true =>
      by_cases hE : does_slurm_reservation_exist sched cb.slurm_reservation_name
      · simp [hE, exist_applyDelete, hbn]
      · simp [hE]
    | false =>
      by_cases hE : does_slurm_reservation_exist sched cb.slurm_reservation_name
      · simp [hE, exist_applyUpdate]
      · simp [hE, exist_applyCreate, hbn2]

theorem step_establishes (cb : CapacityBlock) (sched : List SlurmReservation) (b : Bool)
    (hia : cb.is_active = some b) :
    (update_slurm_reservation cb sched).result = .ok (if b then [] else cb.nodenames) ∧
    reconciled cb (update_slurm_reservation cb sched).sched := by
  unfold update_slurm_reservation reconciled
  rw [hia]
  cases b with
  | true =>
    by_cases hE : does_slurm_reservation_exist sched cb.slurm_reservation_name
    · simp [hE, hia, exist_applyDelete_self]
    · simp [hE, hia, eq_false_of_ne_true hE]
  | false =>
    by_cases hE : does_slurm_reservation_exist sched cb.slurm_reservation_name
    · simp [hE, hia, exist_applyUpdate]
    · simp [hE, hia, exist_applyCreate]

theorem step_reconciled (cb : CapacityBlock) (sched : List SlurmReservation) (b : Bool)
    (hia : cb.is_active = some b) (hrec : reconciled cb sched) :
    (update_slurm_reservation cb sched).result = .ok (if b then [] else cb.nodenames) ∧
    (update_slurm_reservation cb sched).calls.all
      (fun c => !(is_create_or_delete_call c)) = true ∧
    ∀ n, does_slurm_reservation_exist (update_slurm_reservation cb sched).sched n =
      does_slurm_reservation_exist sched n := by
  unfold update_slurm_reservation
  rw [hia]
  cases b with
  | true =>
    have hE : does_slurm_reservation_exist sched cb.slurm_reservation_name = false :=
      hrec.1 hia
    simp [hE, is_create_or_delete_call]
  | false =>
    have hE : does_slurm_reservation_exist sched cb.slurm_reservation_name = true :=
      hrec.2 hia
    simp [hE, is_create_or_delete_call, exist_applyUpdate]

theorem reconcile_all_preserves_other (cbs : List CapacityBlock)
    (sched : List SlurmReservation) (n : String)
    (h : ∀ cb ∈ cbs, cb.slurm_reservation_name ≠ n) :
    does_slurm_reservation_exist (reconcile_all cbs sched).sched n =
      does_slurm_reservation_exist sched n := by
  revert h
  induction cbs generalizing sched with
  | nil => intro _; rfl
  | cons cb rest ih =>
    intro h
    have hcb : n ≠ cb.slurm_reservation_name :=
      Ne.symm (h cb (List.mem_cons_self cb rest))
    have hrest : ∀ c ∈ rest, c.slurm_reservation_name ≠ n :=
      fun c hc => h c (List.mem_cons_of_mem cb hc)
    simp only [reconcile_all]
    cases hr : (update_slurm_reservation cb sched).result with
    | error e =>
      simpa using step_preserves_other cb sched n hcb
    | ok ns =>
      cases hrr : (reconcile_all rest (update_slurm_reservation cb sched).sched).result with
      | error e =>
        have h1 := ih (update_slurm_reservation cb sched).sched hrest
        have h2 := step_preserves_other cb sched n hcb
        simpa using h1.trans h2
      | ok ms =>
        have h1 := ih (update_slurm_reservation cb sched).sched hrest
        have h2 := step_preserves_other cb sched n hcb
        simpa using h1.trans h2

theorem reconcile_all_establishes (cbs : List CapacityBlock) (sched : List SlurmReservation)
    (hnd : (cbs.map (fun cb => cb.slurm_reservation_name)).Nodup)
    (hinfo : ∀ cb ∈ cbs, cb.capacity_block_reservation_info.isSome = true) :
    (∃ v, (reconcile_all cbs sched).result = .ok v) ∧
    ∀ cb ∈ cbs, reconciled cb (reconcile_all cbs sched).sched := by
  revert hnd hinfo
  induction cbs generalizing sched with
  | nil =>
    intro _ _
    exact ⟨⟨[], rfl⟩, by intro cb hc; cases hc⟩
  | cons cb rest ih =>
    intro hnd hinfo
    simp only [List.map_cons, List.nodup_cons] at hnd
    have hne : ∀ c ∈ rest, c.slurm_reservation_name ≠ cb.slurm_reservation_name := by
      intro c hc heq
      exact hnd.1 (heq ▸ List.mem_map_of_mem (fun x => x.slurm_reservation_name) hc)
    obtain ⟨s0, hs0⟩ : ∃ s0, cb.capacity_block_reservation_info = some s0 :=
      Option.isSome_iff_exists.mp (hinfo cb (List.mem_cons_self cb rest))
    have hia : cb.is_active = some (s0 == "active") := by
      simp [CapacityBlock.is_active, CapacityBlock.state, hs0]
    have hstep := step_establishes cb sched _ hia
    have hrest := ih (update_slurm_reservation cb sched).sched hnd.2
      (fun c hc => hinfo c (List.mem_cons_of_mem cb hc))
    obtain ⟨⟨v, hv⟩, hP⟩ := hrest
    simp only [reconcile_all, hstep.1, hv]
    refine ⟨⟨(if s0 == "active" then [] else cb.nodenames) ++ v, rfl⟩, ?_⟩
    intro c hc
    rcases List.mem_cons.mp hc with hceq | hcr
    · subst hceq
      have hpres := reconcile_all_preserves_other rest
        (update_slurm_reservation c sched).sched c.slurm_reservation_name hne
      exact ⟨fun ha => hpres.trans (hstep.2.1 ha), fun ha => hpres.trans (hstep.2.2 ha)⟩
    · exact hP c hcr

theorem reconcile_all_second_pass (cbs : List CapacityBlock) (sched : List SlurmReservation)
    (hinfo : ∀ cb ∈ cbs, cb.capacity_block_reservation_info.isSome = true)
    (hrec : ∀ cb ∈ cbs, reconciled cb sched) :
    (∃ v, (reconcile_all cbs sched).result = .ok v) ∧
    (reconcile_all cbs sched).calls.all (fun c => !(is_create_or_delete_call c)) = true ∧
    ∀ n, does_slurm_reservation_exist (reconcile_all cbs sched).sched n =
      does_slurm_reservation_exist sched n := by
  revert hinfo hrec
  induction cbs generalizing sched with
  | nil =>
    intro _ _
    exact ⟨⟨[], rfl⟩, rfl, fun n => rfl⟩
  | cons cb rest ih =>
    intro hinfo hrec
    obtain ⟨s0, hs0⟩ : ∃ s0, cb.capacity_block_reservation_info = some s0 :=
      Option.isSome_iff_exists.mp (hinfo cb (List.mem_cons_self cb rest))
    have hia : cb.is_active = some (s0 == "active") := by
      simp [CapacityBlock.is_active, CapacityBlock.state, hs0]
    have hstep := step_reconciled cb sched _ hia (hrec cb (List.mem_cons_self cb rest))
    have hrec1 : ∀ c ∈ rest, reconciled c (update_slurm_reservation cb sched).sched := by
      intro c hc
      have hc2 := hrec c (List.mem_cons_of_mem cb hc)
      exact ⟨fun ha => (hstep.2.2 c.slurm_reservation_name).trans (hc2.1 ha),
        fun ha => (hstep.2.2 c.slurm_reservation_name).trans (hc2.2 ha)⟩
    have hrest := ih (update_slurm_reservation cb sched).sched
      (fun c hc => hinfo c (List.mem_cons_of_mem cb hc)) hrec1
    obtain ⟨⟨v, hv⟩, hcalls, hsched⟩ := hrest
    simp only [reconcile_all, hstep.1, hv]
    refine ⟨⟨(if s0 == "active" then [] else cb.nodenames) ++ v, rfl⟩, ?_, ?_⟩
    · simp only [List.all_append]
      rw [hstep.2.1, hcalls]
      rfl
    · intro n
      exact (hsched n).trans (hstep.2.2 n)

/-- Claim C2 (amended): running the reconciler a second time with unchanged
lifecycle states and node bindings issues no create and no delete call (the
second pass completes, and every call it makes is an existence check or an
update re-asserting the same membership); the claim's stronger
zero-create/update/delete form fails because an update is re-issued for each
non-active block. -/
theorem reconciler_second_pass_no_create_or_delete (cbs : List CapacityBlock)
    (sched : List SlurmReservation)
    (hnd : (cbs.map (fun cb => cb.slurm_reservation_name)).Nodup)
    (hinfo : ∀ cb ∈ cbs, cb.capacity_block_reservation_info.isSome = true) :
    (∃ v, (reconcile_all cbs (reconcile_all cbs sched).sched).result = .ok v) ∧
    (reconcile_all cbs (reconcile_all cbs sched).sched).calls.all
      (fun c => !(is_create_or_delete_call c)) = true := by
  have h1 := reconcile_all_establishes cbs sched hnd hinfo
  have h2 := reconcile_all_second_pass cbs (reconcile_all cbs sched).sched hinfo h1.2
  exact ⟨h2.1, h2.2.1⟩

/-- Witness for C2 (amended): one active and one pending block. -/
theorem reconciler_second_pass_no_create_or_delete_witness :
    (∃ v, (reconcile_all
      [⟨"cb-a", "q1", "cr1", some "active", []⟩, ⟨"cb-b", "q2", "cr2", some "pending", ["n1"]⟩]
      ((reconcile_all
        [⟨"cb-a", "q1", "cr1", some "active", []⟩, ⟨"cb-b", "q2", "cr2", some "pending", ["n1"]⟩]
        [⟨"pcluster-cb-a", "n0"⟩]).sched)).result = .ok v) ∧
    (reconcile_all
      [⟨"cb-a", "q1", "cr1", some "active", []⟩, ⟨"cb-b", "q2", "cr2", some "pending", ["n1"]⟩]
      ((reconcile_all
        [⟨"cb-a", "q1", "cr1", some "active", []⟩, ⟨"cb-b", "q2", "cr2", some "pending", ["n1"]⟩]
        [⟨"pcluster-cb-a", "n0"⟩]).sched)).calls.all
      (fun c => !(is_create_or_delete_call c)) = true :=
  reconciler_second_pass_no_create_or_delete
    [⟨"cb-a", "q1", "cr1", some "active", []⟩, ⟨"cb-b", "q2", "cr2", some "pending", ["n1"]⟩]
    [⟨"pcluster-cb-a", "n0"⟩] (by decide) (by decide)

/-- Counterexample for C2 as stated: with a single pending block, the second
reconciliation pass re-issues an update, a scheduler mutation call, so the
second pass does not make zero create/update/delete calls. -/
theorem reconciler_second_pass_mutates_counterexample :
    (reconcile_all [⟨"cb-1", "q1", "cr1", some "pending", ["n1"]⟩]
      ((reconcile_all [⟨"cb-1", "q1", "cr1", some "pending", ["n1"]⟩] []).sched)).calls.any
      is_mutation_call = true := by
  decide

/-- Claim C3 (amended): when the EC2 describe call fails during a refresh, the
error propagates and the last-refresh timestamp, the cached withheld-node list
and the scheduler state are unchanged — but the record mapping is not: it has
already been overwritten with the freshly derived config records (EC2 info
still unset), because the code assigns `_capacity_blocks` before issuing the
describe call. -/
theorem cloud_error_partial_state (fleet : FleetConfig) (cbs : List (String × CapacityBlock))
    (t : Nat) (rn : List String) (nodes : List SlurmNode) (now : Nat)
    (sched : List SlurmReservation) (newcbs : List (String × CapacityBlock))
    (htime : is_time_to_update (some t) now = true)
    (hcfg : capacity_blocks_from_config fleet = .ok newcbs)
    (hne : newcbs.isEmpty = false) :
    get_reserved_nodenames fleet ⟨cbs, some t, rn⟩ nodes now (.error ()) sched =
      ⟨⟨newcbs, some t, rn⟩, sched, [.describeCloud (newcbs.map Prod.fst)], .error ()⟩ := by
  unfold get_reserved_nodenames update_capacity_blocks_info_from_ec2
  rw [hcfg]
  simp [htime, hne]

/-- Witness for C3 (amended): one configured block, failing describe call. -/
theorem cloud_error_partial_state_witness :
    get_reserved_nodenames [("q1", [("cr1", ⟨some "capacity-block", some "cb-9"⟩)])]
        ⟨[("cb-old", ⟨"cb-old", "q1", "cr1", some "active", []⟩)], some 0, ["n0"]⟩
        [] 6000 (.error ()) [] =
      ⟨⟨[("cb-9", ⟨"cb-9", "q1", "cr1", none, []⟩)], some 0, ["n0"]⟩, [],
        [.describeCloud ["cb-9"]], .error ()⟩ :=
  cloud_error_partial_state [("q1", [("cr1", ⟨some "capacity-block", some "cb-9"⟩)])]
    [("cb-old", ⟨"cb-old", "q1", "cr1", some "active", []⟩)] 0 ["n0"] [] 6000 []
    [("cb-9", ⟨"cb-9", "q1", "cr1", none, []⟩)] (by decide) (by decide) (by decide)

/-- Counterexample for C3 as stated: after a failing describe call the record
mapping is not left as it was — the old cached records are gone, replaced by
the fresh config-derived ones. -/
theorem cloud_error_overwrites_records_counterexample :
    (get_reserved_nodenames [("q1", [("cr1", ⟨some "capacity-block", some "cb-9"⟩)])]
        ⟨[("cb-old", ⟨"cb-old", "q1", "cr1", some "active", []⟩)], some 0, ["n0"]⟩
        [] 6000 (.error ()) []).state.capacity_blocks ≠
      [("cb-old", ⟨"cb-old", "q1", "cr1", some "active", []⟩)] := by
  decide

/-- Claim C4: the spec says a configured id absent from the cloud response
keeps the unknown state and is reconciled as not active without raising; the
code instead leaves `_capacity_block_reservation_info` as `None` and the
reconciler's `state()` call raises `AttributeError`, aborting the refresh:
with one configured block and an empty cloud response the tick propagates an
error, creates no reservation and returns no withheld list. -/
theorem absent_cloud_id_raises :
    (get_reserved_nodenames [("q1", [("cr1", ⟨some "capacity-block", some "cb-1"⟩)])]
        ⟨[], some 0, []⟩ [⟨"q1-cr1-0", "q1", "cr1"⟩] 6000 (.ok []) []).result =
      .error () ∧
    (get_reserved_nodenames [("q1", [("cr1", ⟨some "capacity-block", some "cb-1"⟩)])]
        ⟨[], some 0, []⟩ [⟨"q1-cr1-0", "q1", "cr1"⟩] 6000 (.ok []) []).calls =
      [.describeCloud ["cb-1"], .schedExists "pcluster-cb-1"] := by
  constructor
  · decide
  · decide
